import Mathlib

/-!
# User service: RPC server handlers and REST gateway

A shallow embedding of `helloworld/greeter_server/main.go` (the gRPC handlers
`CreateUser`, `GetUser`, `UpdateUser`) and of `helloworld/greeter_client/main.go`
(the HTTP gateway handlers `Create`, `GetUser`, `UpdateUser` and
`extractBearerToken`).

Modelling conventions
* Go strings are Lean `String`s; Go `int`/`int32`/`int64` values are `Int`s (no
  arithmetic is performed on them by the handlers, only comparisons).
* A Go `(resp, err)` return pair is a pair of `Option`s; a run-time panic and
  `log.Fatal` are explicit outcomes.
* The database handle `*gorm.DB` is an interface value `DB σ` over an abstract
  store state `σ`; a nil handle is `none`. Every handler returns, next to its
  outcome, the store it leaves behind and the list of store operations it issued.
* The gRPC client used by the gateway is an interface value; every gateway
  handler returns the list of RPC calls it issued.
-/

/-! ## gRPC status codes and Go errors -/

namespace codes

/-- The gRPC status codes (`google.golang.org/grpc/codes`). -/
inductive Code where
  | OK | Canceled | Unknown | InvalidArgument | DeadlineExceeded | NotFound
  | AlreadyExists | PermissionDenied | ResourceExhausted | FailedPrecondition
  | Aborted | OutOfRange | Unimplemented | Internal | Unavailable | DataLoss
  | Unauthenticated
  deriving DecidableEq, Repr

end codes

/-- A Go `error` value: either a gRPC status error (`status.Error`, `status.Errorf`)
or a plain error made by `errors.New`. -/
inductive GoError where
  | status (code : codes.Code) (msg : String)
  | plain (msg : String)
  deriving DecidableEq, Repr

namespace status

/-- `status.FromError`: the status of a status error with `ok = true`; for any other
error a status of code `Unknown` with `ok = false`. -/
def FromError : GoError → (codes.Code × String) × Bool
  | .status c m => ((c, m), true)
  | .plain m => ((codes.Code.Unknown, m), false)

end status

/-! ## Protocol messages (`pb`) -/

namespace pb

/-- The protobuf message `pb.User`. -/
structure User where
  Id : Int
  FirstName : String
  LastName : String
  Age : Int
  Token : String
  deriving DecidableEq, Repr

/-- The zero value of `pb.User`. -/
def User.zero : User := ⟨0, "", "", 0, ""⟩

/-- Getter `(*User).GetFirstName`, defined on a nil receiver. -/
def User.GetFirstName : Option User → String
  | none => ""
  | some u => u.FirstName

/-- Getter `(*User).GetLastName`, defined on a nil receiver. -/
def User.GetLastName : Option User → String
  | none => ""
  | some u => u.LastName

/-- Getter `(*User).GetAge`, defined on a nil receiver. -/
def User.GetAge : Option User → Int
  | none => 0
  | some u => u.Age

structure CreateUserRequest where
  User : Option User
  deriving DecidableEq, Repr

structure CreateUserResponse where
  User : Option User
  Token : String
  Message : String
  deriving DecidableEq, Repr

structure GetUserRequest where
  Id : Int
  Token : String
  deriving DecidableEq, Repr

structure GetUserResponse where
  User : Option User
  deriving DecidableEq, Repr

structure UpdateUserRequest where
  User : Option User
  Id : Int
  Token : String
  deriving DecidableEq, Repr

structure UpdateUserResponse where
  User : Option User
  Message : String
  deriving DecidableEq, Repr

end pb

/-! ## Token generation (`github.com/google/uuid`) -/

namespace uuid

/-- A `uuid.UUID`: sixteen bytes. -/
structure UUID where
  byte : Fin 16 → Nat

/-- One lower-case hexadecimal digit. -/
def hexDigit (n : Nat) : Char :=
  if n % 16 < 10 then Char.ofNat (48 + n % 16) else Char.ofNat (87 + n % 16)

/-- Two hexadecimal digits for each of the listed bytes. -/
def encodeHex (u : UUID) (idx : List (Fin 16)) : List Char :=
  idx.flatMap fun i => [hexDigit (u.byte i % 256 / 16), hexDigit (u.byte i % 256)]

/-- `uuid.New()` on sixteen bytes read from the random source: the version (4) and
variant (RFC 4122) bits are forced. -/
def New (rand : Fin 16 → Nat) : UUID :=
  ⟨fun i =>
    if i = 6 then rand i % 16 + 64
    else if i = 8 then rand i % 64 + 128
    else rand i % 256⟩

/-- `UUID.String`: the form `xxxxxxxx-xxxx-xxxx-xxxx-xxxxxxxxxxxx`. -/
def UUID.String (u : UUID) : String :=
  ⟨encodeHex u [0, 1, 2, 3] ++ '-' :: encodeHex u [4, 5] ++ '-' :: encodeHex u [6, 7]
    ++ '-' :: encodeHex u [8, 9] ++ '-' :: encodeHex u [10, 11, 12, 13, 14, 15]⟩

end uuid

/-! ## The RPC server (`greeter_server/main.go`) -/

namespace greeter_server

/-- The server-side model struct `User` handed to `DB.Create`. The embedded
`gorm.Model` (primary key and time stamps, filled in by the store) is never read by
the handlers and is left out. -/
structure User where
  id : Int
  First_name : String
  Last_name : String
  Age : Int
  Token : String
  deriving DecidableEq, Repr

/-- What the handlers read of the `*gorm.DB` returned by `DB.Create`. -/
structure CreateResult where
  Error : Option String
  RowsAffected : Int
  deriving DecidableEq, Repr

/-- The three operations of `*gorm.DB` the handlers use, over a store state `σ`.
`First` fills a freshly allocated `pb.User`, which stays the zero value when no row
is found. -/
structure DB (σ : Type) where
  Create : σ → User → σ × CreateResult
  First : σ → Int → pb.User
  Save : σ → pb.User → σ

/-- A store operation issued by a handler. -/
inductive StoreOp where
  | create (u : User)
  | first (id : Int)
  | save (u : pb.User)
  deriving DecidableEq, Repr

/-- How a handler call ends: it returns the Go pair `(resp, err)`, or it panics
(nil pointer dereference on a nil `*gorm.DB`). -/
inductive Outcome (α : Type) where
  | returned (resp : Option α) (err : Option GoError)
  | panicked
  deriving DecidableEq, Repr

/-- The result of running a handler: its outcome, the store afterwards and the store
operations issued, in order. -/
structure Run (σ α : Type) where
  out : Outcome α
  store : Option σ
  ops : List StoreOp

/-- The validation guard shared by `CreateUser` and `UpdateUser`:
`user == nil || user.GetFirstName() == "" || user.GetLastName() == "" || user.GetAge() <= 0`. -/
def invalidUser (user : Option pb.User) : Bool :=
  user.isNone || pb.User.GetFirstName user == "" || pb.User.GetLastName user == ""
    || decide (pb.User.GetAge user ≤ 0)

/-- Handler `userServiceServer.CreateUser`. `s` is the field `s.DB`, `rand` the sixteen
bytes `uuid.New()` reads from the random source. The `none` arm after the guard is the
dereference of a nil `user`, which the guard excludes. -/
def CreateUser {σ : Type} (db : DB σ) (s : Option σ) (rand : Fin 16 → Nat)
    (req : pb.CreateUserRequest) : Run σ pb.CreateUserResponse :=
  if invalidUser req.User then
    ⟨.returned none (some (.status .InvalidArgument "Invalid user data")), s, []⟩
  else
    match req.User with
    | none => ⟨.panicked, s, []⟩
    | some user =>
      let token := (uuid.New rand).String
      let users : User :=
        { id := user.Id, First_name := user.FirstName, Last_name := user.LastName,
          Age := user.Age, Token := token }
      match s with
      | none =>
        ⟨.returned none (some (.status .Internal "Database connection is nil")), s, []⟩
      | some st =>
        let result := db.Create st users
        match result.2.Error with
        | some e =>
          ⟨.returned none (some (.status .Internal e)), some result.1, [.create users]⟩
        | none =>
          if result.2.RowsAffected = 0 then
            ⟨.returned none (some (.plain "cannot create user successfully")),
              some result.1, [.create users]⟩
          else
            ⟨.returned
                (some { User := some user, Token := users.Token,
                        Message := "Created user successfully" }) none,
              some result.1, [.create users]⟩

/-- Handler `userServiceServer.GetUser`. -/
def GetUser {σ : Type} (db : DB σ) (s : Option σ) (req : pb.GetUserRequest) :
    Run σ pb.GetUserResponse :=
  let id := req.Id
  let token := req.Token
  match s with
  | none => ⟨.panicked, s, []⟩
  | some st =>
    let user := db.First st id
    if user.Id = 0 then
      ⟨.returned none (some (.plain "user not found")), s, [.first id]⟩
    else if user.Token ≠ token then
      ⟨.returned none (some (.status .Unauthenticated "Unauthenticated")), s, [.first id]⟩
    else
      ⟨.returned (some { User := some user }) none, s, [.first id]⟩

/-- Handler `userServiceServer.UpdateUser`. -/
def UpdateUser {σ : Type} (db : DB σ) (s : Option σ) (req : pb.UpdateUserRequest) :
    Run σ pb.UpdateUserResponse :=
  let id := req.Id
  let token := req.Token
  if invalidUser req.User then
    ⟨.returned none (some (.status .InvalidArgument "Invalid user data")), s, []⟩
  else
    match req.User with
    | none => ⟨.panicked, s, []⟩
    | some usr =>
      match s with
      | none => ⟨.panicked, s, []⟩
      | some st =>
        let user := db.First st id
        if user.Id = 0 then
          ⟨.returned none (some (.plain "user not found")), s, [.first id]⟩
        else if user.Token ≠ token then
          ⟨.returned none (some (.status .Unauthenticated "Unauthenticated")), s,
            [.first id]⟩
        else
          let user : pb.User :=
            { user with FirstName := usr.FirstName, LastName := usr.LastName, Age := usr.Age }
          ⟨.returned (some { User := some user, Message := "User successfully updated" }) none,
            some (db.Save st user), [.first id, .save user]⟩

end greeter_server

/-! ## A keyed record store -/

namespace store

/-- The row the keyed store of the specification keeps for a created `User`, under the
caller-supplied `id` (spec, data model: the id is "assigned externally"). This is the
specification's keying, used by `memDB` only: in the sources the struct field `id` is
unexported and is not a column, see `serialDB`. -/
def toRow (u : greeter_server.User) : pb.User :=
  ⟨u.id, u.First_name, u.Last_name, u.Age, u.Token⟩

/-- The row stored under `id`, if any. -/
def find (rows : List pb.User) (id : Int) : Option pb.User :=
  rows.find? fun r => r.Id == id

/-- Modelled from the spec: the persistence engine behind `*gorm.DB` (gorm and the
PostgreSQL database, neither part of the sources), as the keyed record repository of
the spec's persistence contract `create(record) → rows_affected | error`,
`find_by_id(id) → record | not_found`, `save(record)`, with `id` unique: `Create`
refuses a second row with the same `id` and otherwise inserts one row, `First`
returns the row stored under `id` or leaves the destination at its zero value, `Save`
replaces the row with the record's `id` or inserts it when there is none. -/
def memDB : greeter_server.DB (List pb.User) where
  Create rows u :=
    if (find rows u.id).isSome then
      (rows, ⟨some "duplicate key value violates unique constraint", 0⟩)
    else (rows ++ [toRow u], ⟨none, 1⟩)
  First rows id := (find rows id).getD pb.User.zero
  Save rows r :=
    if (find rows r.Id).isSome then rows.map fun x => if x.Id = r.Id then r else x
    else rows ++ [r]

/-- A table with a serial primary key: its rows and the last value drawn from the
key sequence. -/
structure Table where
  rows : List pb.User
  seq : Int
  deriving DecidableEq, Repr

/-- The store as the sources declare it. The model struct `User` embeds `gorm.Model`,
whose `ID` is the primary key and is filled in by the database on insert, and its own
field `id` is unexported, so it is not a column: `Create` stores the names, the age and
the token under the next key of the sequence and drops `u.id`. `First` and `Save` work
on the primary key, as in `memDB`. -/
def serialDB : greeter_server.DB Table where
  Create t u :=
    (⟨t.rows ++ [⟨t.seq + 1, u.First_name, u.Last_name, u.Age, u.Token⟩], t.seq + 1⟩,
      ⟨none, 1⟩)
  First t id := (find t.rows id).getD pb.User.zero
  Save t r := ⟨memDB.Save t.rows r, t.seq⟩

end store

/-! ## Sequences of RPC calls -/

namespace greeter_server

/-- One call of the service. -/
inductive Call where
  | create (rand : Fin 16 → Nat) (req : pb.CreateUserRequest)
  | get (req : pb.GetUserRequest)
  | update (req : pb.UpdateUserRequest)

/-- The store left behind by one call. -/
def step {σ : Type} (db : DB σ) (s : Option σ) : Call → Option σ
  | .create rand req => (CreateUser db s rand req).store
  | .get req => (GetUser db s req).store
  | .update req => (UpdateUser db s req).store

/-- The store left behind by a sequence of calls, served one after the other. -/
def serve {σ : Type} (db : DB σ) (s : Option σ) (calls : List Call) : Option σ :=
  calls.foldl (step db) s

/-- The rows of an in-memory store handle (none for a nil handle). -/
def rowsOf (s : Option (List pb.User)) : List pb.User := s.getD []

/-- A valid input of `CreateUser` and `UpdateUser`: both names non-empty and a
positive age. -/
def validInput (u : pb.User) : Prop :=
  u.FirstName ≠ "" ∧ u.LastName ≠ "" ∧ 0 < u.Age

/-- The record-level invariant of the data model. -/
def validRow (r : pb.User) : Prop :=
  r.FirstName ≠ "" ∧ r.LastName ≠ "" ∧ 0 < r.Age ∧ r.Token ≠ ""

end greeter_server

/-! ## Library functions used by the gateway -/

namespace strings

/-- The pieces of `s` between the occurrences of the separator `sep`. -/
def splitChars (sep : Char) : List Char → List (List Char)
  | [] => [[]]
  | c :: cs =>
    if c = sep then [] :: splitChars sep cs
    else
      match splitChars sep cs with
      | [] => [[c]]
      | p :: ps => (c :: p) :: ps

/-- `strings.Split(s, sep)` for a separator of exactly one character, as in
`strings.Split(authHeader, " ")`. -/
def Split (s : String) (sep : Char) : List String :=
  (splitChars sep s.data).map String.mk

/-- Lower-casing of one ASCII byte. -/
def lowerASCII (c : Char) : Char :=
  if 'A' ≤ c ∧ c ≤ 'Z' then Char.ofNat (c.toNat + 32) else c

/-- `strings.ToLower`: a string of ASCII bytes only is mapped byte by byte; any other
string is mapped rune by rune with `unicode.ToLower`, passed in as `lowerRune`. -/
def ToLower (lowerRune : Char → Char) (s : String) : String :=
  if s.data.all fun c => decide (c.toNat < 128) then ⟨s.data.map lowerASCII⟩
  else ⟨s.data.map lowerRune⟩

end strings

namespace strconv

/-- The value of a non-empty string of decimal digits. -/
def parseDigits : List Char → Option Nat
  | [] => none
  | cs =>
    cs.foldl
      (fun acc c =>
        match acc with
        | none => none
        | some n => if '0' ≤ c ∧ c ≤ '9' then some (n * 10 + (c.toNat - 48)) else none)
      (some 0)

/-- `strconv.Atoi` on a 64-bit platform: an optional sign followed by decimal digits,
within the range of `int`; `none` stands for a returned error. -/
def Atoi (s : String) : Option Int :=
  match s.data with
  | [] => none
  | c :: cs =>
    let neg := c = '-'
    let digits := if c = '-' ∨ c = '+' then cs else c :: cs
    match parseDigits digits with
    | none => none
    | some n =>
      if neg then (if n ≤ 2 ^ 63 then some (-(n : Int)) else none)
      else (if n < 2 ^ 63 then some (n : Int) else none)

end strconv

namespace http

/-- What the handlers read of an `*http.Request`: the header map, the body and the
route variables (`mux.Vars`). -/
structure Request where
  Header : List (String × List String)
  Body : String
  Vars : List (String × String)

/-- `Header.Get`: the first value stored under the key, or `""`. -/
def Header.Get (h : List (String × List String)) (key : String) : String :=
  match h.lookup key with
  | some (v :: _) => v
  | _ => ""

/-- `mux.Vars(r)[key]`: the route variable, or `""` when the map has no such key. -/
def Vars.get (vars : List (String × String)) (key : String) : String :=
  (vars.lookup key).getD ""

/-- What has been written to an `http.ResponseWriter`. -/
structure ResponseWriter where
  Code : Nat
  Body : String
  deriving DecidableEq, Repr

/-- A writer nothing has been written to: the status defaults to 200. -/
def ResponseWriter.new : ResponseWriter := ⟨200, ""⟩

def StatusBadRequest : Nat := 400
def StatusUnauthorized : Nat := 401
def StatusInternalServerError : Nat := 500

/-- `http.Error(w, error, code)`: writes the status line and the message followed by a
newline. -/
def Error (w : ResponseWriter) (error : String) (code : Nat) : ResponseWriter :=
  ⟨code, w.Body ++ error ++ "\n"⟩

end http

/-! ## The REST gateway (`greeter_client/main.go`) -/

namespace greeter_client

/-- The JSON body struct `UserDetails`. -/
structure UserDetails where
  Id : Int
  First_name : String
  Last_name : String
  Age : Int
  deriving DecidableEq, Repr

/-- The library functions the gateway calls and the sources do not contain:
`unicode.ToLower`, and `encoding/json` on the three shapes it is used with.
`Decode body` is the value of a zero `UserDetails` after `Decode(&usr)` together with
the returned error (`none` for nil). -/
structure Env where
  lowerRune : Char → Char
  Decode : String → UserDetails × Option String
  EncodeUserDetails : UserDetails → String
  EncodeCreated : Option pb.User → String → String → String
  EncodeUpdated : Option pb.User → String → String

/-- The generated client `pb.UserServiceClient`: each method returns the Go pair
`(res, err)`. -/
structure UserServiceClient where
  CreateUser : pb.CreateUserRequest → Option pb.CreateUserResponse × Option GoError
  GetUser : pb.GetUserRequest → Option pb.GetUserResponse × Option GoError
  UpdateUser : pb.UpdateUserRequest → Option pb.UpdateUserResponse × Option GoError

/-- An RPC issued by a gateway handler. -/
inductive RPC where
  | CreateUser (req : pb.CreateUserRequest)
  | GetUser (req : pb.GetUserRequest)
  | UpdateUser (req : pb.UpdateUserRequest)
  deriving DecidableEq, Repr

/-- How a gateway handler ends: it returns, leaving `w` written; it panics; or it
reaches `log.Fatal`, which exits the process. -/
inductive Outcome where
  | returned (w : http.ResponseWriter)
  | panicked
  | fatal
  deriving DecidableEq, Repr

/-- The result of running a gateway handler: its outcome and the RPCs issued. -/
structure Run where
  out : Outcome
  calls : List RPC
  deriving DecidableEq, Repr

/-- `json.NewEncoder(w).Encode(v)`, on the encoding `enc` of `v`: the encoding and a
newline are written, with the default status. -/
def Encode (w : http.ResponseWriter) (enc : String) : http.ResponseWriter :=
  ⟨w.Code, w.Body ++ enc ++ "\n"⟩

/-- The function `extractBearerToken`. -/
def extractBearerToken (env : Env) (r : http.Request) : String :=
  let authHeader := http.Header.Get r.Header "Authorization"
  if authHeader ≠ "" then
    let authParts := strings.Split authHeader ' '
    if authParts.length = 2 ∧ strings.ToLower env.lowerRune (authParts.getD 0 "") = "bearer" then
      authParts.getD 1 ""
    else ""
  else ""

/-- The error mapping both `GetUser` and `UpdateUser` apply to an RPC error. -/
def writeRPCError (w : http.ResponseWriter) (err : GoError) : http.ResponseWriter :=
  let (statusErr, ok) := status.FromError err
  if ok then
    match statusErr.1 with
    | .Unauthenticated =>
      http.Error w "Unauthorized: Invalid Bearer token" http.StatusUnauthorized
    | _ => http.Error w "Internal Server Error" http.StatusInternalServerError
  else http.Error w "Internal Server Error" http.StatusInternalServerError

/-- The gateway handler `Create` (route `POST /user`). -/
def Create (env : Env) (client : UserServiceClient) (r : http.Request) : Run :=
  let w := http.ResponseWriter.new
  let (usr, err) := env.Decode r.Body
  match err with
  | some _ => ⟨.returned (http.Error w "Error decoding JSON" http.StatusBadRequest), []⟩
  | none =>
    let user : pb.User :=
      { Id := usr.Id, FirstName := usr.First_name, LastName := usr.Last_name,
        Age := usr.Age, Token := "" }
    let req : pb.CreateUserRequest := { User := some user }
    let (res, err) := client.CreateUser req
    match err with
    | some _ => ⟨.fatal, [.CreateUser req]⟩
    | none =>
      match res with
      | none => ⟨.panicked, [.CreateUser req]⟩
      | some res =>
        ⟨.returned (Encode w (env.EncodeCreated res.User res.Token res.Message)),
          [.CreateUser req]⟩

/-- The gateway handler `GetUser` (route `GET /user/{id}`). -/
def GetUser (env : Env) (client : UserServiceClient) (r : http.Request) : Run :=
  let w := http.ResponseWriter.new
  match strconv.Atoi (http.Vars.get r.Vars "id") with
  | none => ⟨.panicked, []⟩
  | some userId =>
    let bearerToken := extractBearerToken env r
    if bearerToken = "" then
      ⟨.returned
        (http.Error w "Unauthorized: Bearer token not provided" http.StatusUnauthorized), []⟩
    else
      let req : pb.GetUserRequest := { Id := userId, Token := bearerToken }
      let (res, err) := client.GetUser req
      match err with
      | some e => ⟨.returned (writeRPCError w e), [.GetUser req]⟩
      | none =>
        match res.bind fun x => x.User with
        | none => ⟨.panicked, [.GetUser req]⟩
        | some u =>
          let usr : UserDetails :=
            { Id := u.Id, First_name := u.FirstName, Last_name := u.LastName, Age := u.Age }
          ⟨.returned (Encode w (env.EncodeUserDetails usr)), [.GetUser req]⟩

/-- The gateway handler `UpdateUser` (route `PUT /user/{id}`). The error returned by
`Decode` is dropped, as in the source. -/
def UpdateUser (env : Env) (client : UserServiceClient) (r : http.Request) : Run :=
  let w := http.ResponseWriter.new
  match strconv.Atoi (http.Vars.get r.Vars "id") with
  | none => ⟨.panicked, []⟩
  | some userId =>
    let bearerToken := extractBearerToken env r
    if bearerToken = "" then
      ⟨.returned
        (http.Error w "Unauthorized: Bearer token not provided" http.StatusUnauthorized), []⟩
    else
      let usr := (env.Decode r.Body).1
      let user : pb.User :=
        { Id := usr.Id, FirstName := usr.First_name, LastName := usr.Last_name,
          Age := usr.Age, Token := "" }
      let req : pb.UpdateUserRequest := { User := some user, Id := userId, Token := bearerToken }
      let (res, err) := client.UpdateUser req
      match err with
      | some e => ⟨.returned (writeRPCError w e), [.UpdateUser req]⟩
      | none =>
        match res with
        | none => ⟨.panicked, [.UpdateUser req]⟩
        | some res =>
          ⟨.returned (Encode w (env.EncodeUpdated res.User res.Message)), [.UpdateUser req]⟩

/-- The token an issued RPC carries (`none` for `CreateUser`, which carries none). -/
def RPC.token : RPC → Option String
  | .CreateUser _ => none
  | .GetUser req => some req.Token
  | .UpdateUser req => some req.Token

/-- The bearer extraction as the specification words it: split the header value on a
single space; valid only if exactly two pieces result and the first, lower-cased,
equals `"bearer"`; otherwise the empty string. -/
def bearerSpec (env : Env) (h : String) : String :=
  match strings.Split h ' ' with
  | [scheme, credential] =>
    if strings.ToLower env.lowerRune scheme = "bearer" then credential else ""
  | _ => ""

/-- Text `s` occurs inside `body`. -/
def Contains (body s : String) : Prop :=
  ∃ pre post : String, body = pre ++ s ++ post

end greeter_client

/-! ## Theorems: the RPC server -/

namespace greeter_server

theorem invalidUser_none : invalidUser none = true := rfl

theorem invalidUser_some (u : pb.User) :
    invalidUser (some u) = true ↔ u.FirstName = "" ∨ u.LastName = "" ∨ u.Age ≤ 0 := by
  simp [invalidUser, pb.User.GetFirstName, pb.User.GetLastName, pb.User.GetAge, or_assoc]

theorem invalidUser_of_valid {u : pb.User} (h : validInput u) :
    invalidUser (some u) = false := by
  obtain ⟨h1, h2, h3⟩ := h
  cases hb : invalidUser (some u) with
  | false => rfl
  | true =>
    rcases (invalidUser_some u).1 hb with h | h | h
    · exact absurd h h1
    · exact absurd h h2
    · omega

/-- C1: a request whose user is absent, or whose first name or last name is empty, or
whose age is not positive, is rejected by both `CreateUser` and `UpdateUser` with the
status error `InvalidArgument` "Invalid user data" and no response; the store handle
(nil or not) is left as it was and no store operation is issued, whatever the id and
the token. -/
theorem C1_invalid_input_rejected {σ : Type} (db : DB σ) (s : Option σ)
    (rand : Fin 16 → Nat) (user : Option pb.User) (id : Int) (token : String)
    (h : ∀ u, user = some u → u.FirstName = "" ∨ u.LastName = "" ∨ u.Age ≤ 0) :
    (CreateUser db s rand ⟨user⟩).out
        = .returned none (some (.status .InvalidArgument "Invalid user data"))
      ∧ (CreateUser db s rand ⟨user⟩).ops = []
      ∧ (CreateUser db s rand ⟨user⟩).store = s
      ∧ (UpdateUser db s ⟨user, id, token⟩).out
        = .returned none (some (.status .InvalidArgument "Invalid user data"))
      ∧ (UpdateUser db s ⟨user, id, token⟩).ops = []
      ∧ (UpdateUser db s ⟨user, id, token⟩).store = s := by
  have hinv : invalidUser user = true := by
    cases user with
    | none => rfl
    | some u => exact (invalidUser_some u).2 (h u rfl)
  simp [CreateUser, UpdateUser, hinv]

/-- Witness of C1: age 0 on a nil store handle. -/
theorem C1_invalid_input_rejected_witness :
    (CreateUser store.memDB none (fun _ => 0) ⟨some ⟨1, "User", "Name", 0, ""⟩⟩).out
        = .returned none (some (.status .InvalidArgument "Invalid user data"))
      ∧ (CreateUser store.memDB none (fun _ => 0) ⟨some ⟨1, "User", "Name", 0, ""⟩⟩).ops = []
      ∧ (CreateUser store.memDB none (fun _ => 0) ⟨some ⟨1, "User", "Name", 0, ""⟩⟩).store
        = none
      ∧ (UpdateUser store.memDB none ⟨some ⟨1, "User", "Name", 0, ""⟩, 1, "t"⟩).out
        = .returned none (some (.status .InvalidArgument "Invalid user data"))
      ∧ (UpdateUser store.memDB none ⟨some ⟨1, "User", "Name", 0, ""⟩, 1, "t"⟩).ops = []
      ∧ (UpdateUser store.memDB none ⟨some ⟨1, "User", "Name", 0, ""⟩, 1, "t"⟩).store
        = none :=
  C1_invalid_input_rejected store.memDB none (fun _ => 0) (some ⟨1, "User", "Name", 0, ""⟩)
    1 "t" (by intro u hu; cases hu; right; right; decide)

end greeter_server

namespace greeter_server

/-- C2: when the lookup of `id` yields a record `r` with `r.Id ≠ 0`, `GetUser` succeeds
exactly when the supplied token equals `r.Token`, and so does `UpdateUser` on a valid
input; on a mismatch both return the status error `Unauthenticated` with no response,
having issued the lookup only: no save, and the store is the one they were given. -/
theorem C2_token_gate {σ : Type} (db : DB σ) (st : σ) (id : Int) (t : String)
    (input : pb.User) (hr : (db.First st id).Id ≠ 0) (hv : validInput input) :
    ((∃ resp, (GetUser db (some st) ⟨id, t⟩).out = .returned (some resp) none)
        ↔ t = (db.First st id).Token)
      ∧ ((∃ resp, (UpdateUser db (some st) ⟨some input, id, t⟩).out = .returned (some resp) none)
        ↔ t = (db.First st id).Token)
      ∧ (t ≠ (db.First st id).Token →
          (GetUser db (some st) ⟨id, t⟩).out
              = .returned none (some (.status .Unauthenticated "Unauthenticated"))
            ∧ (GetUser db (some st) ⟨id, t⟩).ops = [.first id]
            ∧ (GetUser db (some st) ⟨id, t⟩).store = some st
            ∧ (UpdateUser db (some st) ⟨some input, id, t⟩).out
              = .returned none (some (.status .Unauthenticated "Unauthenticated"))
            ∧ (UpdateUser db (some st) ⟨some input, id, t⟩).ops = [.first id]
            ∧ (UpdateUser db (some st) ⟨some input, id, t⟩).store = some st) := by
  have hi := invalidUser_of_valid hv
  by_cases ht : t = (db.First st id).Token
  · subst ht
    simp [GetUser, UpdateUser, hi, hr]
  · have ht' : ¬ (db.First st id).Token = t := fun h => ht h.symm
    simp [GetUser, UpdateUser, hi, hr, ht, ht']

/-- Witness of C2: the stored token is "valid_token", the supplied one "wrong". -/
theorem C2_token_gate_witness :
    ((∃ resp, (GetUser store.memDB (some [⟨1, "Cool", "Kid", 12, "valid_token"⟩])
          ⟨1, "wrong"⟩).out = .returned (some resp) none)
        ↔ "wrong" = (store.memDB.First [⟨1, "Cool", "Kid", 12, "valid_token"⟩] 1).Token)
      ∧ ((∃ resp, (UpdateUser store.memDB (some [⟨1, "Cool", "Kid", 12, "valid_token"⟩])
          ⟨some ⟨1, "A", "B", 10, ""⟩, 1, "wrong"⟩).out = .returned (some resp) none)
        ↔ "wrong" = (store.memDB.First [⟨1, "Cool", "Kid", 12, "valid_token"⟩] 1).Token)
      ∧ ("wrong" ≠ (store.memDB.First [⟨1, "Cool", "Kid", 12, "valid_token"⟩] 1).Token →
          (GetUser store.memDB (some [⟨1, "Cool", "Kid", 12, "valid_token"⟩])
              ⟨1, "wrong"⟩).out
              = .returned none (some (.status .Unauthenticated "Unauthenticated"))
            ∧ (GetUser store.memDB (some [⟨1, "Cool", "Kid", 12, "valid_token"⟩])
              ⟨1, "wrong"⟩).ops = [.first 1]
            ∧ (GetUser store.memDB (some [⟨1, "Cool", "Kid", 12, "valid_token"⟩])
              ⟨1, "wrong"⟩).store = some [⟨1, "Cool", "Kid", 12, "valid_token"⟩]
            ∧ (UpdateUser store.memDB (some [⟨1, "Cool", "Kid", 12, "valid_token"⟩])
              ⟨some ⟨1, "A", "B", 10, ""⟩, 1, "wrong"⟩).out
              = .returned none (some (.status .Unauthenticated "Unauthenticated"))
            ∧ (UpdateUser store.memDB (some [⟨1, "Cool", "Kid", 12, "valid_token"⟩])
              ⟨some ⟨1, "A", "B", 10, ""⟩, 1, "wrong"⟩).ops = [.first 1]
            ∧ (UpdateUser store.memDB (some [⟨1, "Cool", "Kid", 12, "valid_token"⟩])
              ⟨some ⟨1, "A", "B", 10, ""⟩, 1, "wrong"⟩).store
              = some [⟨1, "Cool", "Kid", 12, "valid_token"⟩]) :=
  C2_token_gate store.memDB [⟨1, "Cool", "Kid", 12, "valid_token"⟩] 1 "wrong"
    ⟨1, "A", "B", 10, ""⟩ (by decide) ⟨by decide, by decide, by decide⟩

/-- C3: for a looked-up record `r` with `r.Id ≠ 0` and a valid input, `UpdateUser` with
the token `r.Token` saves and returns the record with `r`'s id and token and the
input's first name, last name and age, under the message "User successfully updated";
the id and the token carried by the input user play no role. -/
theorem C3_update_preserves_id_token {σ : Type} (db : DB σ) (st : σ) (id : Int)
    (input : pb.User) (hr : (db.First st id).Id ≠ 0) (hv : validInput input) :
    (UpdateUser db (some st) ⟨some input, id, (db.First st id).Token⟩).out
        = .returned
            (some { User := some ⟨(db.First st id).Id, input.FirstName, input.LastName,
                                  input.Age, (db.First st id).Token⟩,
                    Message := "User successfully updated" }) none
      ∧ (UpdateUser db (some st) ⟨some input, id, (db.First st id).Token⟩).ops
        = [.first id, .save ⟨(db.First st id).Id, input.FirstName, input.LastName,
                             input.Age, (db.First st id).Token⟩]
      ∧ (UpdateUser db (some st) ⟨some input, id, (db.First st id).Token⟩).store
        = some (db.Save st ⟨(db.First st id).Id, input.FirstName, input.LastName,
                            input.Age, (db.First st id).Token⟩)
      ∧ ∀ (i : Int) (k : String),
          (UpdateUser db (some st)
              ⟨some { input with Id := i, Token := k }, id, (db.First st id).Token⟩).out
            = (UpdateUser db (some st) ⟨some input, id, (db.First st id).Token⟩).out
          ∧ (UpdateUser db (some st)
              ⟨some { input with Id := i, Token := k }, id, (db.First st id).Token⟩).ops
            = (UpdateUser db (some st) ⟨some input, id, (db.First st id).Token⟩).ops
          ∧ (UpdateUser db (some st)
              ⟨some { input with Id := i, Token := k }, id, (db.First st id).Token⟩).store
            = (UpdateUser db (some st) ⟨some input, id, (db.First st id).Token⟩).store := by
  have hi := invalidUser_of_valid hv
  have hi' : ∀ (i : Int) (k : String),
      invalidUser (some { input with Id := i, Token := k }) = false :=
    fun i k => invalidUser_of_valid (u := { input with Id := i, Token := k }) hv
  refine ⟨?_, ?_, ?_, fun i k => ⟨?_, ?_, ?_⟩⟩ <;> simp [UpdateUser, hi, hi', hr]

/-- Witness of C3: the scenario of `TestUpdateUser_success`. -/
theorem C3_update_preserves_id_token_witness :
    (UpdateUser store.memDB (some [⟨1, "FirstName", "LastName", 20, "validToken"⟩])
        ⟨some ⟨7, "UpdatedFirstName", "UpdatedLastName", 10, "other"⟩, 1, "validToken"⟩).out
      = .returned
          (some { User := some ⟨1, "UpdatedFirstName", "UpdatedLastName", 10, "validToken"⟩,
                  Message := "User successfully updated" }) none :=
  (C3_update_preserves_id_token store.memDB [⟨1, "FirstName", "LastName", 20, "validToken"⟩] 1
    ⟨7, "UpdatedFirstName", "UpdatedLastName", 10, "other"⟩ (by decide)
    ⟨by decide, by decide, by decide⟩).1

end greeter_server

namespace uuid

/-- The string form of a UUID is never empty (it holds the four hyphens). -/
theorem String_ne_empty (u : UUID) : u.String ≠ "" := by
  intro h
  have hd := congrArg String.data h
  simp [UUID.String, encodeHex] at hd

end uuid

namespace greeter_server

/-- C4: on a valid input, with a configured store whose `Create` reports no error and
at least one affected row, `CreateUser` succeeds; the response carries the message
"Created user successfully", the input user (so its id, first name, last name and
age), and as token the freshly generated UUID string, which is non-empty, is the token
of the record handed to `Create`, and does not depend on the token field of the
input. -/
theorem C4_create_success {σ : Type} (db : DB σ) (st : σ) (rand : Fin 16 → Nat)
    (x : pb.User) (hv : validInput x)
    (herr : (db.Create st ⟨x.Id, x.FirstName, x.LastName, x.Age, (uuid.New rand).String⟩).2.Error
      = none)
    (hrows : 1 ≤ (db.Create st
      ⟨x.Id, x.FirstName, x.LastName, x.Age, (uuid.New rand).String⟩).2.RowsAffected) :
    (CreateUser db (some st) rand ⟨some x⟩).out
        = .returned
            (some { User := some x, Token := (uuid.New rand).String,
                    Message := "Created user successfully" }) none
      ∧ (CreateUser db (some st) rand ⟨some x⟩).ops
        = [.create ⟨x.Id, x.FirstName, x.LastName, x.Age, (uuid.New rand).String⟩]
      ∧ (CreateUser db (some st) rand ⟨some x⟩).store
        = some (db.Create st
            ⟨x.Id, x.FirstName, x.LastName, x.Age, (uuid.New rand).String⟩).1
      ∧ (uuid.New rand).String ≠ "" := by
  have hi := invalidUser_of_valid hv
  have h0 : ¬ (db.Create st
      ⟨x.Id, x.FirstName, x.LastName, x.Age, (uuid.New rand).String⟩).2.RowsAffected = 0 := by
    omega
  refine ⟨?_, ?_, ?_, uuid.String_ne_empty _⟩ <;> simp [CreateUser, hi, herr, h0]

/-- Witness of C4: the scenario of `TestCreateUser_success` on an empty store; the input
carries a token of its own, which is not the one returned. -/
theorem C4_create_success_witness :
    (CreateUser store.memDB (some []) (fun _ => 0) ⟨some ⟨1, "Cool", "Kid", 10, "mine"⟩⟩).out
        = .returned
            (some { User := some ⟨1, "Cool", "Kid", 10, "mine"⟩,
                    Token := (uuid.New fun _ => 0).String,
                    Message := "Created user successfully" }) none
      ∧ (uuid.New fun _ => 0).String ≠ "" :=
  have h := C4_create_success store.memDB [] (fun _ => 0) ⟨1, "Cool", "Kid", 10, "mine"⟩
    ⟨by decide, by decide, by decide⟩ rfl (by decide)
  ⟨h.1, h.2.2.2⟩

/-- C6: when the lookup of `id` yields a record with id 0, `GetUser` and `UpdateUser`
(on a valid input) return the plain error "user not found" and no response, for every
supplied token, the looked-up record's own token included; the error is not a status
error (`status.FromError` reports `ok = false`), so it differs from every
`Unauthenticated` error, and it is returned after the lookup alone. -/
theorem C6_not_found {σ : Type} (db : DB σ) (st : σ) (id : Int) (t : String)
    (input : pb.User) (hr : (db.First st id).Id = 0) (hv : validInput input) :
    (GetUser db (some st) ⟨id, t⟩).out = .returned none (some (.plain "user not found"))
      ∧ (GetUser db (some st) ⟨id, (db.First st id).Token⟩).out
        = .returned none (some (.plain "user not found"))
      ∧ (UpdateUser db (some st) ⟨some input, id, t⟩).out
        = .returned none (some (.plain "user not found"))
      ∧ (UpdateUser db (some st) ⟨some input, id, (db.First st id).Token⟩).out
        = .returned none (some (.plain "user not found"))
      ∧ (GetUser db (some st) ⟨id, t⟩).ops = [.first id]
      ∧ (UpdateUser db (some st) ⟨some input, id, t⟩).ops = [.first id]
      ∧ (UpdateUser db (some st) ⟨some input, id, t⟩).store = some st
      ∧ (status.FromError (.plain "user not found")).2 = false
      ∧ ∀ msg, GoError.plain "user not found" ≠ .status .Unauthenticated msg := by
  have hi := invalidUser_of_valid hv
  refine ⟨?_, ?_, ?_, ?_, ?_, ?_, ?_, rfl, fun msg h => by cases h⟩ <;>
    simp [GetUser, UpdateUser, hi, hr]

/-- Witness of C6: the scenario of `TestGetUser_GotUserIDZeroFromDB_...`: the store
returns a row with id 0 and the token the caller supplies. -/
theorem C6_not_found_witness :
    (GetUser ⟨fun st _ => (st, ⟨none, 1⟩), fun _ _ => ⟨0, "Cool", "Kid", 12, "valid_token"⟩,
        fun st _ => st⟩ (some ()) ⟨1, "valid_token"⟩).out
      = .returned none (some (.plain "user not found")) :=
  (C6_not_found (σ := Unit)
    ⟨fun st _ => (st, ⟨none, 1⟩), fun _ _ => ⟨0, "Cool", "Kid", 12, "valid_token"⟩,
      fun st _ => st⟩ () 1 "valid_token" ⟨1, "A", "B", 10, ""⟩ rfl
    ⟨by decide, by decide, by decide⟩).1

/-- C7: on a valid input, `CreateUser` returns a status error of code `Internal` and no
response when the store handle is nil (no store operation) and when `Create` returns
an error; when `Create` returns no error and zero affected rows it returns no response
and the plain error "cannot create user successfully", which is not a status error and
so carries no `Internal` code. -/
theorem C7_create_failures {σ : Type} (db : DB σ) (st : σ) (rand : Fin 16 → Nat)
    (x : pb.User) (hv : validInput x) :
    (CreateUser db none rand ⟨some x⟩).out
        = .returned none (some (.status .Internal "Database connection is nil"))
      ∧ (CreateUser db none rand ⟨some x⟩).ops = []
      ∧ (∀ e, (db.Create st
            ⟨x.Id, x.FirstName, x.LastName, x.Age, (uuid.New rand).String⟩).2.Error = some e →
          (CreateUser db (some st) rand ⟨some x⟩).out
            = .returned none (some (.status .Internal e)))
      ∧ ((db.Create st
            ⟨x.Id, x.FirstName, x.LastName, x.Age, (uuid.New rand).String⟩).2.Error = none →
          (db.Create st
            ⟨x.Id, x.FirstName, x.LastName, x.Age, (uuid.New rand).String⟩).2.RowsAffected = 0 →
          (CreateUser db (some st) rand ⟨some x⟩).out
            = .returned none (some (.plain "cannot create user successfully")))
      ∧ (status.FromError (.plain "cannot create user successfully")).2 = false
      ∧ ∀ msg, GoError.plain "cannot create user successfully" ≠ .status .Internal msg := by
  have hi := invalidUser_of_valid hv
  refine ⟨?_, ?_, fun e he => ?_, fun he h0 => ?_, rfl, fun msg h => by cases h⟩ <;>
    simp [CreateUser, hi, *]

/-- Witness of C7: the scenario of `TestCreateUser_ZeroRowsAffected_throwsError`, on a
store whose `Create` reports no error and no affected row. -/
theorem C7_create_failures_witness :
    (CreateUser (σ := Unit) ⟨fun st _ => (st, ⟨none, 0⟩), fun _ _ => pb.User.zero, fun st _ => st⟩
        (some ()) (fun _ => 0) ⟨some ⟨1, "User", "Name", 10, ""⟩⟩).out
      = .returned none (some (.plain "cannot create user successfully")) :=
  (C7_create_failures (σ := Unit)
    ⟨fun st _ => (st, ⟨none, 0⟩), fun _ _ => pb.User.zero, fun st _ => st⟩ () (fun _ => 0)
    ⟨1, "User", "Name", 10, ""⟩ ⟨by decide, by decide, by decide⟩).2.2.2.1 rfl rfl

end greeter_server

namespace store

theorem find_append_new (rows : List pb.User) (r : pb.User) (h : find rows r.Id = none) :
    find (rows ++ [r]) r.Id = some r := by
  unfold find at h ⊢
  rw [List.find?_append, h]
  simp

end store

namespace greeter_server

/-- C5, what the code does: `CreateUser` hands the caller's id to the store in the
unexported field `id`, which is not persisted; on the empty table the record of every
valid input is stored under the key 1. So for every valid input whose id is not 1,
`CreateUser` succeeds with a token and `GetUser` with the input's id and that token on
the resulting store returns "user not found"; the record is read back under the key 1,
with the id 1 and not the input's. -/
theorem C5_caller_id_not_persisted (rand : Fin 16 → Nat) (x : pb.User)
    (hv : validInput x) (hid : x.Id ≠ 1) :
    (CreateUser store.serialDB (some ⟨[], 0⟩) rand ⟨some x⟩).out
        = .returned
            (some { User := some x, Token := (uuid.New rand).String,
                    Message := "Created user successfully" }) none
      ∧ (CreateUser store.serialDB (some ⟨[], 0⟩) rand ⟨some x⟩).ops
        = [.create ⟨x.Id, x.FirstName, x.LastName, x.Age, (uuid.New rand).String⟩]
      ∧ (CreateUser store.serialDB (some ⟨[], 0⟩) rand ⟨some x⟩).store
        = some ⟨[⟨1, x.FirstName, x.LastName, x.Age, (uuid.New rand).String⟩], 1⟩
      ∧ (GetUser store.serialDB
          (CreateUser store.serialDB (some ⟨[], 0⟩) rand ⟨some x⟩).store
          ⟨x.Id, (uuid.New rand).String⟩).out
        = .returned none (some (.plain "user not found"))
      ∧ (GetUser store.serialDB
          (CreateUser store.serialDB (some ⟨[], 0⟩) rand ⟨some x⟩).store
          ⟨1, (uuid.New rand).String⟩).out
        = .returned
            (some { User := some ⟨1, x.FirstName, x.LastName, x.Age,
                                  (uuid.New rand).String⟩ }) none := by
  have hi := invalidUser_of_valid hv
  have hid' : ¬ (1 : Int) = x.Id := fun h => hid h.symm
  have hstore : (CreateUser store.serialDB (some ⟨[], 0⟩) rand ⟨some x⟩).store
      = some ⟨[⟨1, x.FirstName, x.LastName, x.Age, (uuid.New rand).String⟩], 1⟩ := by
    simp [CreateUser, hi, store.serialDB]
  refine ⟨?_, ?_, hstore, ?_, ?_⟩
  · simp [CreateUser, hi, store.serialDB]
  · simp [CreateUser, hi, store.serialDB]
  · rw [hstore]
    simp [GetUser, store.serialDB, store.find, hid', pb.User.zero]
  · rw [hstore]
    simp [GetUser, store.serialDB, store.find]

/-- Witness of C5: create with the id 5 on the empty table, then get with the id 5 and
the returned token. -/
theorem C5_caller_id_not_persisted_witness :
    (CreateUser store.serialDB (some ⟨[], 0⟩) (fun _ => 0)
        ⟨some ⟨5, "Cool", "Kid", 10, ""⟩⟩).out
        = .returned
            (some { User := some ⟨5, "Cool", "Kid", 10, ""⟩,
                    Token := (uuid.New fun _ => 0).String,
                    Message := "Created user successfully" }) none
      ∧ (GetUser store.serialDB
          (CreateUser store.serialDB (some ⟨[], 0⟩) (fun _ => 0)
            ⟨some ⟨5, "Cool", "Kid", 10, ""⟩⟩).store
          ⟨5, (uuid.New fun _ => 0).String⟩).out
        = .returned none (some (.plain "user not found")) :=
  have h := C5_caller_id_not_persisted (fun _ => 0) ⟨5, "Cool", "Kid", 10, ""⟩
    ⟨by decide, by decide, by decide⟩ (by decide)
  ⟨h.1, h.2.2.2.1⟩

end greeter_server

namespace store

theorem find_some_id {rows : List pb.User} {id : Int} {r : pb.User}
    (h : find rows id = some r) : r.Id = id := by
  have := List.find?_some h
  simpa using this

theorem find_some_mem {rows : List pb.User} {id : Int} {r : pb.User}
    (h : find rows id = some r) : r ∈ rows :=
  List.mem_of_find?_eq_some h

/-- Looking up in a list rewritten row by row by an id-preserving function. -/
theorem find_map (f : pb.User → pb.User) (hf : ∀ x, (f x).Id = x.Id) (rows : List pb.User)
    (id : Int) : find (rows.map f) id = (find rows id).map f := by
  induction rows with
  | nil => rfl
  | cons a rows ih =>
    unfold find at ih ⊢
    by_cases ha : a.Id = id
    · simp [List.find?_cons, hf, ha]
    · simp [List.find?_cons, hf, ha, ih]

/-- A row that is found stays found, unchanged, when a row is appended. -/
theorem find_append_old (rows : List pb.User) (n : pb.User) {id : Int} {r : pb.User}
    (h : find rows id = some r) : find (rows ++ [n]) id = some r := by
  unfold find at h ⊢
  rw [List.find?_append, h]
  rfl

end store

namespace greeter_server

/-- Effect of one call on the rows of the in-memory store: the handle stays configured,
valid rows stay valid, and a row found under an id is still found under it with the
same token. -/
theorem step_memDB (rows : List pb.User) (c : Call) :
    ∃ rows', step store.memDB (some rows) c = some rows'
      ∧ ((∀ r ∈ rows, validRow r) → ∀ r ∈ rows', validRow r)
      ∧ ∀ id r, store.find rows id = some r →
          ∃ r', store.find rows' id = some r' ∧ r'.Token = r.Token := by
  have keep : ∃ rows', some rows = some rows'
      ∧ ((∀ r ∈ rows, validRow r) → ∀ r ∈ rows', validRow r)
      ∧ ∀ id r, store.find rows id = some r →
          ∃ r', store.find rows' id = some r' ∧ r'.Token = r.Token :=
    ⟨rows, rfl, fun h => h, fun id r h => ⟨r, h, rfl⟩⟩
  cases c with
  | get req =>
    simp only [step, GetUser]
    split_ifs <;> exact keep
  | create rand req =>
    simp only [step, CreateUser]
    split_ifs with hinv
    · exact keep
    · cases hu : req.User with
      | none => exact keep
      | some x =>
        have hx : invalidUser (some x) = false := by
          rw [hu] at hinv; simpa using hinv
        have hval : ¬ (x.FirstName = "" ∨ x.LastName = "" ∨ x.Age ≤ 0) := by
          intro h
          rw [(invalidUser_some x).2 h] at hx
          cases hx
        by_cases hf : (store.find rows x.Id).isSome
        · simpa [store.memDB, hf] using keep
        · refine ⟨rows ++ [⟨x.Id, x.FirstName, x.LastName, x.Age, (uuid.New rand).String⟩],
            by simp [store.memDB, hf, store.toRow], ?_, ?_⟩
          · intro hall r hr
            rcases List.mem_append.1 hr with h | h
            · exact hall r h
            · rw [List.mem_singleton.1 h]
              refine ⟨fun h1 => hval (Or.inl h1), fun h2 => hval (Or.inr (Or.inl h2)), ?_,
                uuid.String_ne_empty _⟩
              by_contra h3
              exact hval (Or.inr (Or.inr (by simpa using h3)))
          · intro id r h
            exact ⟨r, store.find_append_old rows _ h, rfl⟩
  | update req =>
    obtain ⟨user, reqId, token⟩ := req
    cases user with
    | none => simpa [step, UpdateUser, invalidUser_none] using keep
    | some x =>
      by_cases hx : invalidUser (some x) = true
      · simpa [step, UpdateUser, hx] using keep
      · have hval : ¬ (x.FirstName = "" ∨ x.LastName = "" ∨ x.Age ≤ 0) :=
          fun h => hx ((invalidUser_some x).2 h)
        cases hfind : store.find rows reqId with
        | none =>
          have hfirst : store.memDB.First rows reqId = pb.User.zero := by
            simp [store.memDB, hfind]
          simpa [step, UpdateUser, hx, hfirst, pb.User.zero] using keep
        | some r0 =>
          have hfirst : store.memDB.First rows reqId = r0 := by simp [store.memDB, hfind]
          have hid0 : r0.Id = reqId := store.find_some_id hfind
          by_cases h0 : r0.Id = 0
          · simpa [step, UpdateUser, hx, hfirst, h0] using keep
          · by_cases ht : r0.Token = token
            · subst ht
              have hf : (store.find rows r0.Id).isSome := by simp [hid0, hfind]
              have hsave : store.memDB.Save rows
                  ⟨r0.Id, x.FirstName, x.LastName, x.Age, r0.Token⟩
                  = rows.map fun y => if y.Id = r0.Id then
                    (⟨r0.Id, x.FirstName, x.LastName, x.Age, r0.Token⟩ : pb.User) else y := by
                simp [store.memDB, hf]
              have hmap : ∀ y : pb.User,
                  (if y.Id = r0.Id then
                    (⟨r0.Id, x.FirstName, x.LastName, x.Age, r0.Token⟩ : pb.User) else y).Id
                    = y.Id := by
                intro y
                split_ifs with hy
                · exact hy.symm
                · rfl
              refine ⟨rows.map fun y => if y.Id = r0.Id then
                  (⟨r0.Id, x.FirstName, x.LastName, x.Age, r0.Token⟩ : pb.User) else y,
                by simp [step, UpdateUser, hx, hfirst, h0, hsave], ?_, ?_⟩
              · intro hall r hr
                obtain ⟨y, hy, rfl⟩ := List.mem_map.1 hr
                split_ifs with hyid
                · refine ⟨fun h1 => hval (Or.inl h1), fun h2 => hval (Or.inr (Or.inl h2)), ?_,
                    (hall r0 (store.find_some_mem hfind)).2.2.2⟩
                  by_contra h3
                  exact hval (Or.inr (Or.inr (by simpa using h3)))
                · exact hall y hy
              · intro id r h
                rw [store.find_map _ hmap, h]
                refine ⟨_, rfl, ?_⟩
                dsimp only
                split_ifs with hrid
                · have h1 : id = reqId := by
                    rw [← store.find_some_id h, hrid, hid0]
                  rw [h1, hfind] at h
                  cases h
                  rfl
                · rfl
            · simpa [step, UpdateUser, hx, hfirst, h0, ht] using keep

/-- Effect of a sequence of calls on the rows of the in-memory store. -/
theorem serve_memDB (calls : List Call) (rows : List pb.User) :
    ∃ rows', serve store.memDB (some rows) calls = some rows'
      ∧ ((∀ r ∈ rows, validRow r) → ∀ r ∈ rows', validRow r)
      ∧ ∀ id r, store.find rows id = some r →
          ∃ r', store.find rows' id = some r' ∧ r'.Token = r.Token := by
  induction calls generalizing rows with
  | nil => exact ⟨rows, rfl, fun h => h, fun id r h => ⟨r, h, rfl⟩⟩
  | cons c calls ih =>
    obtain ⟨rows1, h1, hv1, ht1⟩ := step_memDB rows c
    obtain ⟨rows2, h2, hv2, ht2⟩ := ih rows1
    refine ⟨rows2, by simp [serve, List.foldl_cons, h1] at h2 ⊢; exact h2,
      fun h => hv2 (hv1 h), ?_⟩
    intro id r h
    obtain ⟨r1, hr1, e1⟩ := ht1 id r h
    obtain ⟨r2, hr2, e2⟩ := ht2 id r1 hr1
    exact ⟨r2, hr2, e2.trans e1⟩

/-- C8: starting from the empty store, after every finite sequence of `CreateUser`,
`GetUser` and `UpdateUser` calls with arbitrary arguments, every persisted record has a
non-empty first name, a non-empty last name, a positive age and a non-empty token; and
a record persisted after `calls` is, after any further calls, still persisted under the
same id with the same token. -/
theorem C8_store_invariant (calls more : List Call) :
    (∀ r ∈ rowsOf (serve store.memDB (some []) calls), validRow r)
      ∧ ∀ id r, store.find (rowsOf (serve store.memDB (some []) calls)) id = some r →
          ∃ r', store.find (rowsOf (serve store.memDB (some []) (calls ++ more))) id = some r'
            ∧ r'.Token = r.Token := by
  obtain ⟨rows1, h1, hv1, _⟩ := serve_memDB calls []
  obtain ⟨rows2, h2, _, ht2⟩ := serve_memDB more rows1
  have happ : serve store.memDB (some []) (calls ++ more) = some rows2 := by
    simp only [serve, List.foldl_append] at h1 h2 ⊢
    rw [h1, h2]
  rw [h1, happ]
  exact ⟨hv1 (by simp), ht2⟩

end greeter_server

/-! ## Theorems: the REST gateway -/

namespace strings

/-- No piece of a split holds the separator. -/
theorem splitChars_no_sep (sep : Char) (l : List Char) :
    ∀ p ∈ splitChars sep l, sep ∉ p := by
  induction l with
  | nil => simp [splitChars]
  | cons c cs ih =>
    intro p hp
    unfold splitChars at hp
    split_ifs at hp with hc
    · rcases List.mem_cons.1 hp with h | h
      · simp [h]
      · exact ih p h
    · cases hs : splitChars sep cs with
      | nil => simp [hs] at hp; simp [hp, Ne.symm hc]
      | cons q qs =>
        rw [hs] at ih
        simp only [hs, List.mem_cons] at hp
        rcases hp with h | h
        · subst h
          have hq := ih q (List.mem_cons_self _ _)
          simp [Ne.symm hc, hq]
        · exact ih p (List.mem_cons_of_mem _ h)

theorem Split_no_sep (s : String) (sep : Char) : ∀ p ∈ Split s sep, sep ∉ p.data := by
  intro p hp
  obtain ⟨q, hq, rfl⟩ := List.mem_map.1 hp
  exact splitChars_no_sep sep _ q hq

end strings

namespace greeter_client

theorem extractBearerToken_eq (env : Env) (r : http.Request) :
    extractBearerToken env r
      = if (strings.Split (http.Header.Get r.Header "Authorization") ' ').length = 2
            ∧ strings.ToLower env.lowerRune
                ((strings.Split (http.Header.Get r.Header "Authorization") ' ').getD 0 "")
              = "bearer"
        then (strings.Split (http.Header.Get r.Header "Authorization") ' ').getD 1 ""
        else "" := by
  unfold extractBearerToken
  by_cases h : http.Header.Get r.Header "Authorization" = ""
  · have hs : strings.Split "" ' ' = [""] := rfl
    simp [h, hs]
  · simp [h]

end greeter_client

namespace greeter_client

/-- C9: for every `Authorization` header value `h` (the empty string when the header is
absent), `extractBearerToken` agrees with the specification's extraction: it returns
the second piece of `h` split on single spaces when the split yields exactly two
pieces and the first, lower-cased, equals "bearer", and the empty string in every
other case. Hence the result holds no space, an absent header yields the empty string,
and so does the header "Bearer " with an empty credential. -/
theorem C9_extractBearerToken (env : Env) (r : http.Request) :
    extractBearerToken env r = bearerSpec env (http.Header.Get r.Header "Authorization")
      ∧ (((strings.Split (http.Header.Get r.Header "Authorization") ' ').length = 2
            ∧ strings.ToLower env.lowerRune
                ((strings.Split (http.Header.Get r.Header "Authorization") ' ').getD 0 "")
              = "bearer") →
          extractBearerToken env r
            = (strings.Split (http.Header.Get r.Header "Authorization") ' ').getD 1 "")
      ∧ (¬ ((strings.Split (http.Header.Get r.Header "Authorization") ' ').length = 2
            ∧ strings.ToLower env.lowerRune
                ((strings.Split (http.Header.Get r.Header "Authorization") ' ').getD 0 "")
              = "bearer") →
          extractBearerToken env r = "")
      ∧ ' ' ∉ (extractBearerToken env r).data
      ∧ (r.Header.lookup "Authorization" = none → extractBearerToken env r = "")
      ∧ (http.Header.Get r.Header "Authorization" = "Bearer " →
          extractBearerToken env r = "") := by
  have heq := extractBearerToken_eq env r
  refine ⟨?_, fun hc => ?_, fun hc => ?_, ?_, fun hn => ?_, fun hb => ?_⟩
  · rw [heq]
    unfold bearerSpec
    rcases hs : strings.Split (http.Header.Get r.Header "Authorization") ' ' with
      _ | ⟨a, _ | ⟨b, _ | ⟨c, l⟩⟩⟩ <;> simp
  · rw [heq, if_pos hc]
  · rw [heq, if_neg hc]
  · rw [heq]
    split_ifs with hc
    · have hlt : 1 < (strings.Split (http.Header.Get r.Header "Authorization") ' ').length := by
        omega
      have hmem : (strings.Split (http.Header.Get r.Header "Authorization") ' ').getD 1 ""
          ∈ strings.Split (http.Header.Get r.Header "Authorization") ' ' := by
        rw [List.getD_eq_getElem _ _ hlt]
        exact List.getElem_mem _
      exact strings.Split_no_sep _ _ _ hmem
    · simp
  · have hg : http.Header.Get r.Header "Authorization" = "" := by
      simp [http.Header.Get, hn]
    simp [extractBearerToken, hg]
  · rw [heq, hb]
    have hs : strings.Split "Bearer " ' ' = ["Bearer", ""] := by decide
    simp [hs]

/-- Witness of C9: the header `Authorization: Bearer abc` yields "abc". -/
theorem C9_extractBearerToken_witness :
    extractBearerToken ⟨id, fun _ => (⟨0, "", "", 0⟩, none), fun _ => "", fun _ _ _ => "",
        fun _ _ => ""⟩ ⟨[("Authorization", ["Bearer abc"])], "", []⟩
      = "abc" :=
  (C9_extractBearerToken
    ⟨id, fun _ => (⟨0, "", "", 0⟩, none), fun _ => "", fun _ _ _ => "", fun _ _ => ""⟩
    ⟨[("Authorization", ["Bearer abc"])], "", []⟩).2.1 (by decide)

end greeter_client

namespace greeter_client

theorem GetUser_calls_token (env : Env) (client : UserServiceClient) (r : http.Request) :
    ∀ c ∈ (GetUser env client r).calls, c.token ≠ some "" := by
  intro c h
  cases hn : strconv.Atoi (http.Vars.get r.Vars "id") with
  | none => simp [GetUser, hn] at h
  | some n =>
    by_cases htok : extractBearerToken env r = ""
    · simp [GetUser, hn, htok] at h
    · simp only [GetUser, hn, htok, if_false] at h
      have hc : c = .GetUser ⟨n, extractBearerToken env r⟩ := by
        split at h
        · simpa using h
        · split at h <;> simpa using h
      rw [hc]
      simpa [RPC.token] using htok

theorem UpdateUser_calls_token (env : Env) (client : UserServiceClient) (r : http.Request) :
    ∀ c ∈ (UpdateUser env client r).calls, c.token ≠ some "" := by
  intro c h
  cases hn : strconv.Atoi (http.Vars.get r.Vars "id") with
  | none => simp [UpdateUser, hn] at h
  | some n =>
    by_cases htok : extractBearerToken env r = ""
    · simp [UpdateUser, hn, htok] at h
    · simp only [UpdateUser, hn, htok, if_false] at h
      have hc : ∃ u, c = .UpdateUser ⟨u, n, extractBearerToken env r⟩ := by
        split at h
        · exact ⟨_, by simpa using h⟩
        · split at h <;> exact ⟨_, by simpa using h⟩
      obtain ⟨u, hc⟩ := hc
      rw [hc]
      simpa [RPC.token] using htok

/-- C10: on a request with a numeric id (one `strconv.Atoi` parses) whose
`Authorization` header yields no bearer token, the gateway handlers `GetUser` and `UpdateUser` answer with status 401 and the
body "Unauthorized: Bearer token not provided", which contains "Bearer token not
provided", and issue no RPC. And on every request whatsoever, no RPC issued by
`GetUser` or `UpdateUser` carries the empty token. -/
theorem C10_missing_bearer_token (env : Env) (client : UserServiceClient) (r : http.Request) :
    ((∃ n, strconv.Atoi (http.Vars.get r.Vars "id") = some n) →
        extractBearerToken env r = "" →
        GetUser env client r
            = ⟨.returned ⟨401, "Unauthorized: Bearer token not provided\n"⟩, []⟩
          ∧ UpdateUser env client r
            = ⟨.returned ⟨401, "Unauthorized: Bearer token not provided\n"⟩, []⟩
          ∧ Contains "Unauthorized: Bearer token not provided\n" "Bearer token not provided")
      ∧ ∀ c ∈ (GetUser env client r).calls ++ (UpdateUser env client r).calls,
          c.token ≠ some "" := by
  constructor
  · rintro ⟨n, hn⟩ htok
    refine ⟨?_, ?_, ⟨"Unauthorized: ", "\n", by decide⟩⟩
    · simp [GetUser, hn, htok, http.Error, http.ResponseWriter.new, http.StatusUnauthorized]
    · simp [UpdateUser, hn, htok, http.Error, http.ResponseWriter.new, http.StatusUnauthorized]
  · intro c hc
    rcases List.mem_append.1 hc with h | h
    · exact GetUser_calls_token env client r c h
    · exact UpdateUser_calls_token env client r c h

/-- Witness of C10: `GET /user/1` and `PUT /user/1` without an `Authorization` header. -/
theorem C10_missing_bearer_token_witness :
    GetUser ⟨id, fun _ => (⟨0, "", "", 0⟩, none), fun _ => "", fun _ _ _ => "", fun _ _ => ""⟩
        ⟨fun _ => (none, none), fun _ => (none, none), fun _ => (none, none)⟩
        ⟨[], "", [("id", "1")]⟩
      = ⟨.returned ⟨401, "Unauthorized: Bearer token not provided\n"⟩, []⟩ :=
  ((C10_missing_bearer_token
    ⟨id, fun _ => (⟨0, "", "", 0⟩, none), fun _ => "", fun _ _ _ => "", fun _ _ => ""⟩
    ⟨fun _ => (none, none), fun _ => (none, none), fun _ => (none, none)⟩
    ⟨[], "", [("id", "1")]⟩).1 ⟨1, by decide⟩ (by decide)).1

end greeter_client

namespace greeter_client

/-- The two shapes of the answer written for an RPC error: 401 "Invalid Bearer token"
for a status error of code `Unauthenticated`, 500 for any other error. -/
theorem writeRPCError_cases (e : GoError) :
    ((∃ msg, e = .status .Unauthenticated msg)
        ∧ writeRPCError http.ResponseWriter.new e
          = ⟨401, "Unauthorized: Invalid Bearer token\n"⟩)
      ∨ ((¬ ∃ msg, e = .status .Unauthenticated msg)
        ∧ writeRPCError http.ResponseWriter.new e = ⟨500, "Internal Server Error\n"⟩) := by
  cases e with
  | plain m =>
    right
    refine ⟨fun ⟨msg, h⟩ => (by cases h), ?_⟩
    simp [writeRPCError, status.FromError, http.Error, http.ResponseWriter.new,
      http.StatusInternalServerError]
  | status c m =>
    by_cases hc : c = codes.Code.Unauthenticated
    · left
      subst hc
      refine ⟨⟨m, rfl⟩, ?_⟩
      simp [writeRPCError, status.FromError, http.Error, http.ResponseWriter.new,
        http.StatusUnauthorized]
    · right
      refine ⟨fun ⟨msg, h⟩ => hc (by cases h; rfl), ?_⟩
      cases c <;>
        first
          | exact absurd rfl hc
          | simp [writeRPCError, status.FromError, http.Error, http.ResponseWriter.new,
              http.StatusInternalServerError]

/-- What `writeRPCError` guarantees about the written answer. -/
theorem writeRPCError_spec (e : GoError) :
    (((writeRPCError http.ResponseWriter.new e).Code = 401
          ∧ Contains (writeRPCError http.ResponseWriter.new e).Body "Invalid Bearer token")
        ↔ ∃ msg, e = .status .Unauthenticated msg)
      ∧ ((¬ ∃ msg, e = .status .Unauthenticated msg) →
          (writeRPCError http.ResponseWriter.new e).Code = 500)
      ∧ ¬ (200 ≤ (writeRPCError http.ResponseWriter.new e).Code
          ∧ (writeRPCError http.ResponseWriter.new e).Code < 300) := by
  rcases writeRPCError_cases e with ⟨hu, hw⟩ | ⟨hu, hw⟩
  · rw [hw]
    refine ⟨⟨fun _ => hu, fun _ => ⟨rfl, "Unauthorized: ", "\n", by decide⟩⟩,
      fun h => absurd hu h, by decide⟩
  · rw [hw]
    refine ⟨⟨fun h => ?_, fun h => absurd h hu⟩, fun _ => rfl, by decide⟩
    exact absurd h.1 (by decide)

end greeter_client

namespace greeter_client

/-- C11: on a `GET` or `PUT` request that reaches the service (numeric id, bearer token
present) and any error `e` the RPC returns, the gateway handlers `GetUser` and
`UpdateUser` return having written the answer `writeRPCError` maps `e` to: status 401
with a body containing "Invalid Bearer token" exactly when `e` is a status error of
code `Unauthenticated`, status 500 for every other error (any other status code, any
plain error), and never a 2xx status. -/
theorem C11_rpc_error_mapping (env : Env) (client : UserServiceClient) (r : http.Request)
    (n : Int) (e : GoError)
    (hid : strconv.Atoi (http.Vars.get r.Vars "id") = some n)
    (htok : extractBearerToken env r ≠ "") :
    (∀ res, client.GetUser ⟨n, extractBearerToken env r⟩ = (res, some e) →
        GetUser env client r
          = ⟨.returned (writeRPCError http.ResponseWriter.new e),
              [.GetUser ⟨n, extractBearerToken env r⟩]⟩)
      ∧ (∀ res,
          client.UpdateUser
              ⟨some ⟨(env.Decode r.Body).1.Id, (env.Decode r.Body).1.First_name,
                  (env.Decode r.Body).1.Last_name, (env.Decode r.Body).1.Age, ""⟩,
                n, extractBearerToken env r⟩ = (res, some e) →
          UpdateUser env client r
            = ⟨.returned (writeRPCError http.ResponseWriter.new e),
                [.UpdateUser
                  ⟨some ⟨(env.Decode r.Body).1.Id, (env.Decode r.Body).1.First_name,
                      (env.Decode r.Body).1.Last_name, (env.Decode r.Body).1.Age, ""⟩,
                    n, extractBearerToken env r⟩]⟩)
      ∧ (((writeRPCError http.ResponseWriter.new e).Code = 401
            ∧ Contains (writeRPCError http.ResponseWriter.new e).Body "Invalid Bearer token")
          ↔ ∃ msg, e = .status .Unauthenticated msg)
      ∧ ((¬ ∃ msg, e = .status .Unauthenticated msg) →
          (writeRPCError http.ResponseWriter.new e).Code = 500)
      ∧ ¬ (200 ≤ (writeRPCError http.ResponseWriter.new e).Code
          ∧ (writeRPCError http.ResponseWriter.new e).Code < 300) := by
  refine ⟨fun res h => ?_, fun res h => ?_, writeRPCError_spec e⟩
  · simp [GetUser, hid, htok, h]
  · simp [UpdateUser, hid, htok, h]

/-- Witness of C11: `GET /user/1` with the token "wrong" on a service answering
`Unauthenticated` is answered with 401 "Unauthorized: Invalid Bearer token". -/
theorem C11_rpc_error_mapping_witness :
    GetUser ⟨id, fun _ => (⟨0, "", "", 0⟩, none), fun _ => "", fun _ _ _ => "", fun _ _ => ""⟩
        ⟨fun _ => (none, none),
          fun _ => (none, some (.status .Unauthenticated "Unauthenticated")),
          fun _ => (none, none)⟩
        ⟨[("Authorization", ["Bearer wrong"])], "", [("id", "1")]⟩
      = ⟨.returned ⟨401, "Unauthorized: Invalid Bearer token\n"⟩, [.GetUser ⟨1, "wrong"⟩]⟩ :=
  (C11_rpc_error_mapping
    ⟨id, fun _ => (⟨0, "", "", 0⟩, none), fun _ => "", fun _ _ _ => "", fun _ _ => ""⟩
    ⟨fun _ => (none, none),
      fun _ => (none, some (.status .Unauthenticated "Unauthenticated")),
      fun _ => (none, none)⟩
    ⟨[("Authorization", ["Bearer wrong"])], "", [("id", "1")]⟩ 1
    (.status .Unauthenticated "Unauthenticated") (by decide) (by decide)).1 none rfl

end greeter_client

namespace greeter_client

/-- C12, what the code does: when the body of a `POST` request decodes and the
`CreateUser` RPC returns an error (of any kind, `InvalidArgument` and `Internal`
included), the gateway handler `Create` reaches `log.Fatal`: the process exits and no
answer is written, neither 400 nor 500. -/
theorem C12_create_rpc_error_is_fatal (env : Env) (client : UserServiceClient)
    (r : http.Request) (res : Option pb.CreateUserResponse) (e : GoError)
    (hdec : (env.Decode r.Body).2 = none)
    (hrpc : client.CreateUser
        ⟨some ⟨(env.Decode r.Body).1.Id, (env.Decode r.Body).1.First_name,
          (env.Decode r.Body).1.Last_name, (env.Decode r.Body).1.Age, ""⟩⟩ = (res, some e)) :
    Create env client r
      = ⟨.fatal,
          [.CreateUser
            ⟨some ⟨(env.Decode r.Body).1.Id, (env.Decode r.Body).1.First_name,
              (env.Decode r.Body).1.Last_name, (env.Decode r.Body).1.Age, ""⟩⟩]⟩ := by
  unfold Create
  rcases hd : env.Decode r.Body with ⟨usr, err⟩
  rw [hd] at hdec hrpc
  simp only at hdec hrpc
  subst hdec
  simp [hrpc]

/-- Witness of C12: the body decodes to first name "User", last name "Name", age 0; the
RPC is served by the handler `greeter_server.CreateUser`, which rejects the input with
`InvalidArgument`; the gateway ends in `log.Fatal`. -/
theorem C12_create_rpc_error_is_fatal_witness :
    Create
        ⟨id, fun _ => (⟨0, "User", "Name", 0⟩, none), fun _ => "", fun _ _ _ => "",
          fun _ _ => ""⟩
        ⟨fun req =>
            match (greeter_server.CreateUser store.memDB (some []) (fun _ => 0) req).out with
            | .returned resp err => (resp, err)
            | .panicked => (none, none),
          fun _ => (none, none), fun _ => (none, none)⟩
        ⟨[], "\x7b\"first_name\":\"User\",\"last_name\":\"Name\",\"age\":0\x7d", []⟩
      = ⟨.fatal, [.CreateUser ⟨some ⟨0, "User", "Name", 0, ""⟩⟩]⟩ :=
  C12_create_rpc_error_is_fatal
    ⟨id, fun _ => (⟨0, "User", "Name", 0⟩, none), fun _ => "", fun _ _ _ => "",
      fun _ _ => ""⟩
    ⟨fun req =>
        match (greeter_server.CreateUser store.memDB (some []) (fun _ => 0) req).out with
        | .returned resp err => (resp, err)
        | .panicked => (none, none),
      fun _ => (none, none), fun _ => (none, none)⟩
    ⟨[], "\x7b\"first_name\":\"User\",\"last_name\":\"Name\",\"age\":0\x7d", []⟩
    none (.status .InvalidArgument "Invalid user data") rfl rfl

/-- C13, what the code does: a `POST` body that fails to decode is answered with 400
"Error decoding JSON" and no RPC; a `PUT` request with a numeric id and a bearer token
always issues the `UpdateUser` RPC, built from whatever `Decode` left in the struct,
also when `Decode` returned an error, which the handler drops. -/
theorem C13_decode_failure (env : Env) (client : UserServiceClient) (r : http.Request) :
    ((env.Decode r.Body).2 ≠ none →
        Create env client r = ⟨.returned ⟨400, "Error decoding JSON\n"⟩, []⟩)
      ∧ ∀ n, strconv.Atoi (http.Vars.get r.Vars "id") = some n →
          extractBearerToken env r ≠ "" →
          (UpdateUser env client r).calls
            = [.UpdateUser
                ⟨some ⟨(env.Decode r.Body).1.Id, (env.Decode r.Body).1.First_name,
                    (env.Decode r.Body).1.Last_name, (env.Decode r.Body).1.Age, ""⟩,
                  n, extractBearerToken env r⟩] := by
  constructor
  · intro hdec
    unfold Create
    rcases hd : env.Decode r.Body with ⟨usr, err⟩
    rw [hd] at hdec
    cases err with
    | none => exact absurd rfl hdec
    | some m => simp [http.Error, http.ResponseWriter.new, http.StatusBadRequest]
  · intro n hid htok
    simp only [UpdateUser, hid, htok, if_false]
    split
    · rfl
    · split <;> rfl

/-- Witness of C13: `PUT /user/1` with a bearer token and a body on which `Decode`
returns an error: the `UpdateUser` RPC is issued all the same, with the zero-valued
user. -/
theorem C13_decode_failure_witness :
    (UpdateUser
        ⟨id, fun _ => (⟨0, "", "", 0⟩, some "invalid character"), fun _ => "",
          fun _ _ _ => "", fun _ _ => ""⟩
        ⟨fun _ => (none, none), fun _ => (none, none),
          fun _ => (none, some (.status .InvalidArgument "Invalid user data"))⟩
        ⟨[("Authorization", ["Bearer tok"])], "not json", [("id", "1")]⟩).calls
      = [.UpdateUser ⟨some ⟨0, "", "", 0, ""⟩, 1, "tok"⟩] :=
  (C13_decode_failure
    ⟨id, fun _ => (⟨0, "", "", 0⟩, some "invalid character"), fun _ => "",
      fun _ _ _ => "", fun _ _ => ""⟩
    ⟨fun _ => (none, none), fun _ => (none, none),
      fun _ => (none, some (.status .InvalidArgument "Invalid user data"))⟩
    ⟨[("Authorization", ["Bearer tok"])], "not json", [("id", "1")]⟩).2 1 (by decide)
    (by decide)

end greeter_client

namespace store

/-- Saving a record over a row with the same non-zero id makes `First` return it. -/
theorem memDB_first_save (rows : List pb.User) (id : Int) (r : pb.User)
    (hid : (memDB.First rows id).Id = r.Id) (h0 : r.Id ≠ 0) :
    memDB.First (memDB.Save rows r) id = r := by
  cases hfind : find rows id with
  | none =>
    have : (memDB.First rows id).Id = 0 := by simp [memDB, hfind, pb.User.zero]
    exact absurd (hid ▸ this) h0
  | some r0 =>
    have hr0 : r0.Id = r.Id := by simpa [memDB, hfind] using hid
    have hkey : r.Id = id := by rw [← hr0]; exact find_some_id hfind
    have hf : (find rows r.Id).isSome := by simp [hkey, hfind]
    have hmap : ∀ y : pb.User, (if y.Id = r.Id then r else y).Id = y.Id := by
      intro y
      split_ifs with hy
      · exact hy.symm
      · rfl
    have hsave : memDB.Save rows r = rows.map fun y => if y.Id = r.Id then r else y := by
      simp [memDB, hf]
    have hlook := find_map (fun y => if y.Id = r.Id then r else y) hmap rows id
    rw [hfind] at hlook
    simp only [Option.map_some', hr0, if_true] at hlook
    show (find (memDB.Save rows r) id).getD pb.User.zero = r
    rw [hsave, hlook]
    rfl

/-- Saving the same record a second time changes nothing. -/
theorem memDB_save_save (rows : List pb.User) (r : pb.User) :
    memDB.Save (memDB.Save rows r) r = memDB.Save rows r := by
  have hmap : ∀ y : pb.User, (if y.Id = r.Id then r else y).Id = y.Id := by
    intro y
    split_ifs with hy
    · exact hy.symm
    · rfl
  cases hfind : find rows r.Id with
  | some r0 =>
    have hf : (find rows r.Id).isSome := by simp [hfind]
    have hsave : memDB.Save rows r = rows.map fun y => if y.Id = r.Id then r else y := by
      simp [memDB, hf]
    have hlook := find_map (fun y => if y.Id = r.Id then r else y) hmap rows r.Id
    rw [hfind] at hlook
    have hf2 : (find (rows.map fun y => if y.Id = r.Id then r else y) r.Id).isSome := by
      rw [hlook]; rfl
    rw [hsave]
    have : memDB.Save (rows.map fun y => if y.Id = r.Id then r else y) r
        = (rows.map fun y => if y.Id = r.Id then r else y).map
            fun y => if y.Id = r.Id then r else y := by
      simp only [memDB, hf2, if_true]
    rw [this, List.map_map]
    apply List.map_congr_left
    intro y _
    simp only [Function.comp]
    by_cases hy : y.Id = r.Id <;> simp [hy]
  | none =>
    have hsave : memDB.Save rows r = rows ++ [r] := by simp [memDB, hfind]
    have hf2 : (find (rows ++ [r]) r.Id).isSome := by
      rw [find_append_new rows r hfind]; rfl
    rw [hsave]
    have : memDB.Save (rows ++ [r]) r
        = (rows ++ [r]).map fun y => if y.Id = r.Id then r else y := by
      simp only [memDB, hf2, if_true]
    rw [this, List.map_append]
    have hrows : (rows.map fun y => if y.Id = r.Id then r else y) = rows := by
      have hall : ∀ y ∈ rows, ¬ y.Id = r.Id := by
        intro y hy
        have := List.find?_eq_none.1 hfind y hy
        simpa using this
      calc (rows.map fun y => if y.Id = r.Id then r else y)
          = rows.map fun y => y := by
            apply List.map_congr_left
            intro y hy
            simp [hall y hy]
        _ = rows := by simp
    rw [hrows]
    simp

end store

namespace greeter_server

/-- On a store whose `Save` is idempotent and whose `First` returns a record just saved
over a row of the same id, a second identical `UpdateUser` call leaves the store and
returns the result of the first. -/
theorem UpdateUser_twice {σ : Type} (db : DB σ)
    (hsave : ∀ st r, db.Save (db.Save st r) r = db.Save st r)
    (hread : ∀ st id r, (db.First st id).Id = r.Id → r.Id ≠ 0 →
      db.First (db.Save st r) id = r)
    (s : Option σ) (req : pb.UpdateUserRequest) :
    (UpdateUser db (UpdateUser db s req).store req).store = (UpdateUser db s req).store
      ∧ (UpdateUser db (UpdateUser db s req).store req).out = (UpdateUser db s req).out := by
  obtain ⟨user, id, token⟩ := req
  by_cases hinv : invalidUser user = true
  · simp [UpdateUser, hinv]
  · cases user with
    | none => exact absurd invalidUser_none hinv
    | some x =>
      cases s with
      | none => simp [UpdateUser, hinv]
      | some st =>
        by_cases h0 : (db.First st id).Id = 0
        · simp [UpdateUser, hinv, h0]
        · by_cases ht : (db.First st id).Token = token
          · have hfirst := hread st id
              ⟨(db.First st id).Id, x.FirstName, x.LastName, x.Age, (db.First st id).Token⟩
              rfl h0
            subst ht
            simp [UpdateUser, hinv, h0, hfirst, hsave]
          · simp [UpdateUser, hinv, h0, ht]

/-- C14: on the keyed store, for every store state, id, token and valid input, a second
`UpdateUser` call with the same arguments leaves the store in the state the first call
left it in and returns the same result as the first (the same record and message, or
the same error); in particular, when the first call finds a record with a non-zero id
and the supplied token, the second call again returns that record with the input's
first name, last name and age under the message "User successfully updated". -/
theorem C14_update_idempotent (s : Option (List pb.User)) (id : Int) (token : String)
    (input : pb.User) (hv : validInput input) :
    (UpdateUser store.memDB
        (UpdateUser store.memDB s ⟨some input, id, token⟩).store ⟨some input, id, token⟩).store
        = (UpdateUser store.memDB s ⟨some input, id, token⟩).store
      ∧ (UpdateUser store.memDB
        (UpdateUser store.memDB s ⟨some input, id, token⟩).store ⟨some input, id, token⟩).out
        = (UpdateUser store.memDB s ⟨some input, id, token⟩).out
      ∧ ∀ rows, s = some rows → (store.memDB.First rows id).Id ≠ 0 →
          (store.memDB.First rows id).Token = token →
          (UpdateUser store.memDB
              (UpdateUser store.memDB s ⟨some input, id, token⟩).store
              ⟨some input, id, token⟩).out
            = .returned
                (some { User := some ⟨(store.memDB.First rows id).Id, input.FirstName,
                                      input.LastName, input.Age, token⟩,
                        Message := "User successfully updated" }) none := by
  have h := UpdateUser_twice store.memDB store.memDB_save_save store.memDB_first_save s
    ⟨some input, id, token⟩
  refine ⟨h.1, h.2, fun rows hs h0 ht => ?_⟩
  rw [h.2, hs]
  have hi := invalidUser_of_valid hv
  simp [UpdateUser, hi, h0, ht]

/-- Witness of C14: updating the record of id 1 twice with the same input. -/
theorem C14_update_idempotent_witness :
    (UpdateUser store.memDB
        (UpdateUser store.memDB
          (some [⟨1, "FirstName", "LastName", 20, "validToken"⟩, ⟨2, "A", "B", 3, "t"⟩])
          ⟨some ⟨1, "UpdatedFirstName", "UpdatedLastName", 10, ""⟩, 1, "validToken"⟩).store
        ⟨some ⟨1, "UpdatedFirstName", "UpdatedLastName", 10, ""⟩, 1, "validToken"⟩).store
      = (UpdateUser store.memDB
          (some [⟨1, "FirstName", "LastName", 20, "validToken"⟩, ⟨2, "A", "B", 3, "t"⟩])
          ⟨some ⟨1, "UpdatedFirstName", "UpdatedLastName", 10, ""⟩, 1, "validToken"⟩).store :=
  (C14_update_idempotent
    (some [⟨1, "FirstName", "LastName", 20, "validToken"⟩, ⟨2, "A", "B", 3, "t"⟩]) 1
    "validToken" ⟨1, "UpdatedFirstName", "UpdatedLastName", 10, ""⟩
    ⟨by decide, by decide, by decide⟩).1

end greeter_server
